import Mathlib

/-!
Verification of the libpnet datalink backends (`src/datalink/bpf.rs` and
`src/datalink/winpcap.rs`) against their natural-language specification.

The two Rust backends are shallowly embedded below.  Machine `usize`
arithmetic is modelled as `Nat` with explicit reduction modulo `2 ^ 64`
where the Rust code can overflow (release-mode wrapping semantics).
OS calls (ioctl, select, write, PacketSendPacket, ...) are modelled by
boolean success oracles; the bytes handed to the device write primitive
are recorded in a trace.  The capture-record header decoding performed by
the code through `bindings::bpf::bpf_hdr` (a fixed memory layout that is
not part of the two source files) is a parameter `decode` mapping the
byte suffix at the scan cursor to the `(bh_hdrlen, bh_caplen)` fields.
-/

namespace Pnet

/-- Machine word modulus for `usize`/`u64` wrapping arithmetic. -/
def W : Nat := 2 ^ 64

/-- Wrapping multiplication, the release-mode semantics of `a * b : usize`. -/
def wrapMul (a b : Nat) : Nat := a * b % W

/-- Wrapping subtraction `a - b : usize` (for `b ≤ W`). -/
def wrapSub (a b : Nat) : Nat := (a + W - b) % W

/-- Modelled from the spec: `BPF_WORDALIGN` from `bindings::bpf` (not under
`src/`) rounds a record advance up to the platform's required word
alignment, i.e. to the next multiple of `align`. -/
def wordAlign (align x : Nat) : Nat := (x + align - 1) / align * align

/-- Modelled from the spec: `EthernetPacket::minimum_packet_size()` of the
external frame view type — the minimum Ethernet header, 14 bytes. -/
def ethernetHeaderSize : Nat := 14

/-- The 4-byte loopback pseudo-header (`header_size` literal in `next`). -/
def loopbackHeaderSize : Nat := 4

/-- In-place overwrite of `data.length` bytes of `buf` starting at `off`,
modelling a write through a mutable slice. -/
def setSlice (buf : List Nat) (off : Nat) (data : List Nat) : List Nat :=
  buf.take off ++ data ++ buf.drop (off + data.length)

/-- One step of the record scan loop of `next()`: starting from `cursor`,
decode `(bh_hdrlen, bh_caplen)` at the cursor, push
`(cursor + bh_hdrlen + header_size, bh_caplen - header_size)` and advance
the cursor by `BPF_WORDALIGN(bh_hdrlen + bh_caplen)`, while
`cursor < buflen`.  `fuel` bounds the recursion (the Rust loop does not
terminate when the aligned advance is zero). -/
def scanGo (decode : List Nat → Nat × Nat) (align hs : Nat) (bytes : List Nat)
    (buflen : Nat) : Nat → Nat → List (Nat × Nat) × Nat
  | 0, cursor => ([], cursor)
  | fuel + 1, cursor =>
    if cursor < buflen then
      let fields := decode (bytes.drop cursor)
      let rest := scanGo decode align hs bytes buflen fuel
        (cursor + wordAlign align (fields.1 + fields.2))
      ((cursor + fields.1 + hs, wrapSub fields.2 hs) :: rest.1, rest.2)
    else ([], cursor)

/-- The `(offset, length)` pairs pushed onto the pending-record queue by one
scan of `buflen` read bytes. -/
def scanRecords (decode : List Nat → Nat × Nat) (align hs : Nat) (bytes : List Nat)
    (buflen : Nat) : List (Nat × Nat) :=
  (scanGo decode align hs bytes buflen (buflen + 1) 0).1

/-- The final position of the scan cursor after scanning `buflen` read bytes. -/
def scanCursor (decode : List Nat → Nat × Nat) (align hs : Nat) (bytes : List Nat)
    (buflen : Nat) : Nat :=
  (scanGo decode align hs bytes buflen (buflen + 1) 0).2

/-- Result discriminator of `build_and_send`/`send_to`:
`capacity` = `None` (local "request too large"), `osErr` = `Some(Err(_))`,
`ok` = `Some(Ok(()))`, `panicked` = a Rust panic (failed `unwrap`). -/
inductive SendStatus
  | capacity
  | osErr
  | ok
  | panicked
deriving DecidableEq

/-- Observable trace of one send call: its result, the byte sequences passed
to the device write primitive (in order), and how many times the
caller-supplied populate closure ran. -/
structure SendTrace where
  status : SendStatus
  writes : List (List Nat)
  populateCalls : Nat
deriving DecidableEq

/-- The `(start, size)` ranges of `slice.chunks_mut(fs)` over a slice of
length `totalLen`. -/
def chunkRanges (totalLen fs : Nat) : List (Nat × Nat) :=
  (List.range ((totalLen + fs - 1) / fs)).map fun i => (i * fs, min fs (totalLen - i * fs))

/-- A frame delivered by one `next()` call: the returned bytes, the popped
`(start, length-before-loopback-adjustment)` queue entry, and whether this
call performed a device read. -/
structure NextOutcome where
  frame : List Nat
  record : Nat × Nat
  didRead : Bool
deriving DecidableEq

/-- Every `(offset, length)` pair of `rs` denotes a byte range lying within
the first `n` populated bytes of the buffer. -/
def recordsWithin (rs : List (Nat × Nat)) (n : Nat) : Prop :=
  ∀ p ∈ rs, p.1 + p.2 ≤ n

instance (rs : List (Nat × Nat)) (n : Nat) : Decidable (recordsWithin rs n) := by
  unfold recordsWithin
  infer_instance

/-- The popped record and read flag of a `next()` result. -/
def recOf {α : Type} (r : Option (NextOutcome × α)) : Option ((Nat × Nat) × Bool) :=
  r.map fun x => (x.1.record, x.1.didRead)

/-- A concrete header decoder for the FIFO example: every record header
reads as header length 4, captured length 16 (a minimum-size frame). -/
def fifoDecode : List Nat → Nat × Nat := fun _ => (4, 16)

/-- A concrete 60-byte read holding three back-to-back records. -/
def fifoData : List Nat := List.replicate 60 1

/-- A concrete 60-byte read buffer. -/
def fifoBuf : List Nat := List.replicate 60 0

/-- Modelled from the spec: the bytes one loopback feedback capture places
in the read buffer.  The loopback device delivers a written frame back as
a BPF capture record: the record header (`hdr` bytes, whose fields the
`decode` parameter reads), then the OS-prepended 4-byte address-family
tag, then the written bytes themselves — "The OS will prepend the packet
with 4 bytes set to AF_INET"; loopback captures carry this 4-byte
pseudo-header in place of a link-layer header. -/
def loopbackCapture (hdr af written : List Nat) : List Nat :=
  hdr ++ (af ++ written)

/-- The successor state of a `next()` result (`d` when the call failed). -/
def stateOf {α : Type} (r : Option (NextOutcome × α)) (d : α) : α :=
  (r.map Prod.snd).getD d

namespace bpf

/-- Loop body of `DataLinkSenderImpl::build_and_send` in `bpf.rs`: for each
chunk of the write buffer, run the populate closure on the chunk through a
`MutableEthernetPacket` view (whose `new(..).unwrap()` panics on a chunk
shorter than the minimum header), `select` on the device, then `write` the
chunk's bytes, omitting the leading `offset` bytes. -/
def buildGo (populate : Nat → List Nat → List Nat) (selectOk writeOk : Nat → Bool)
    (offset : Nat) : List (Nat × Nat) → Nat → List Nat → SendTrace × List Nat
  | [], _, buf => (⟨.ok, [], 0⟩, buf)
  | (start, size) :: rest, i, buf =>
    let chunk := (buf.drop start).take size
    if chunk.length < ethernetHeaderSize then (⟨.panicked, [], 0⟩, buf)
    else
      let buf1 := setSlice buf start (populate i chunk)
      if selectOk i then
        let sent := ((buf1.drop start).take size).drop offset
        if writeOk i then
          let r := buildGo populate selectOk writeOk offset rest (i + 1) buf1
          (⟨r.1.status, sent :: r.1.writes, r.1.populateCalls + 1⟩, r.2)
        else (⟨.osErr, [sent], 1⟩, buf1)
      else (⟨.osErr, [], 1⟩, buf1)

/-- `DataLinkSenderImpl::build_and_send` in `bpf.rs`:
`len = num_packets * packet_size` (wrapping); if `len >= write_buffer.len()`
return `None` (capacity), else iterate over `write_buffer[..len]` in
`packet_size` chunks (`chunks_mut` panics on a zero chunk size).
Returns the trace and the final write buffer. -/
def build_and_send (num_packets packet_size : Nat)
    (populate : Nat → List Nat → List Nat) (selectOk writeOk : Nat → Bool)
    (loopback : Bool) (write_buffer : List Nat) : SendTrace × List Nat :=
  let len := wrapMul num_packets packet_size
  if write_buffer.length ≤ len then (⟨.capacity, [], 0⟩, write_buffer)
  else if packet_size = 0 then (⟨.panicked, [], 0⟩, write_buffer)
  else
    let offset := if loopback then ethernetHeaderSize else 0
    buildGo populate selectOk writeOk offset (chunkRanges len packet_size) 0 write_buffer

/-- `DataLinkSenderImpl::send_to` in `bpf.rs`: one `select` on the device,
then one `write` of the packet's bytes, omitting the leading header bytes
when on the loopback device.  It consults no write buffer and performs no
capacity check. -/
def send_to (loopback : Bool) (selectOk writeOk : Bool) (packet : List Nat) :
    SendTrace :=
  let offset := if loopback then ethernetHeaderSize else 0
  if selectOk then
    let sent := packet.drop offset
    if writeOk then ⟨.ok, [sent], 0⟩ else ⟨.osErr, [sent], 0⟩
  else ⟨.osErr, [], 0⟩

/-- Receiver state: the owned read buffer, the channel's loopback flag, and
the iterator's FIFO queue of pending `(offset, length)` capture records. -/
structure RecvState where
  read_buffer : List Nat
  loopback : Bool
  packets : List (Nat × Nat)
deriving DecidableEq

/-- Tail of `DataLinkChannelIteratorImpl::next` in `bpf.rs`: pop the front
queue entry `(start, len)`, grow `len` by the loopback `buffer_offset`,
zero `read_buffer[start .. start + buffer_offset]` (the synthesized
placeholder Ethernet header) and return the view
`read_buffer[start .. start + len]` through `EthernetPacket::new(..)
.unwrap()`.  `none` models the panics on an empty queue
(`pop_front().unwrap()`), on an out-of-range slice, and on a delivered
slice shorter than the minimum Ethernet header (where
`EthernetPacket::new` yields `None` and the `unwrap` panics). -/
def pop (st : RecvState) (didRead : Bool) : Option (NextOutcome × RecvState) :=
  match st.packets with
  | [] => none
  | (start, len0) :: rest =>
    let off := if st.loopback then ethernetHeaderSize else 0
    let len := len0 + off
    let buf2 := setSlice st.read_buffer start (List.replicate off 0)
    if start + len ≤ buf2.length then
      if ethernetHeaderSize ≤ len then
        some (⟨(buf2.drop start).take len, (start, len0), didRead⟩, ⟨buf2, st.loopback, rest⟩)
      else none
    else none

/-- `DataLinkChannelIteratorImpl::next` in `bpf.rs`.  When the queue is
empty it performs one device read — `readData` is the oracle for the bytes
the read places at `read_buffer[buffer_offset ..]` (`none` = failed or
non-positive read, surfaced as an OS error) — and scans them into the
queue; the pushed offsets are relative to the post-offset slice but are
consumed against the full buffer, exactly as in the source.  When the
queue is non-empty no read occurs. -/
def next (decode : List Nat → Nat × Nat) (align : Nat)
    (readData : Option (List Nat)) (st : RecvState) :
    Option (NextOutcome × RecvState) :=
  match st.packets with
  | [] =>
    match readData with
    | none => none
    | some data =>
      if data.length = 0 then none
      else
        let off := if st.loopback then ethernetHeaderSize else 0
        let hs := if st.loopback then loopbackHeaderSize else 0
        let buf1 := setSlice st.read_buffer off data
        let recs := scanRecords decode align hs (buf1.drop off) data.length
        pop ⟨buf1, st.loopback, recs⟩ true
  | _ :: _ => pop st false

/-- Success/failure oracle for the device-control steps of `channel` in
`bpf.rs`, in program order. -/
structure ChannelOracle where
  openOk : Bool
  setBufLenOk : Bool
  bindIfaceOk : Bool
  immediateOk : Bool
  getDltOk : Bool
  dltIsNull : Bool
  feedbackOk : Bool
  hdrCompleteOk : Bool
  hasReadTimeout : Bool
  readTimeoutOk : Bool
deriving DecidableEq

/-- Outcome of a `channel` call: whether it returned an error, whether the
opened descriptor is still open when the call returns, the loopback flag
and the allocated read buffer size of the constructed channel. -/
structure ChannelResult where
  isError : Bool
  deviceOpen : Bool
  loopback : Bool
  readBufferLen : Nat
deriving DecidableEq

/-- `channel` in `bpf.rs`: open a `/dev/bpf*` descriptor, set the kernel
buffer length, bind to the interface, enable immediate mode, query the
link-layer type (on `DLT_NULL` mark loopback, enlarge the read buffer by
one Ethernet header and enable feedback, otherwise set header-complete),
then apply the read timeout.  Every failing step closes the descriptor
before returning the error. -/
def channel (o : ChannelOracle) (read_buffer_size : Nat) : ChannelResult :=
  if !o.openOk then ⟨true, false, false, 0⟩
  else if !o.setBufLenOk then ⟨true, false, false, 0⟩
  else if !o.bindIfaceOk then ⟨true, false, false, 0⟩
  else if !o.immediateOk then ⟨true, false, false, 0⟩
  else if !o.getDltOk then ⟨true, false, false, 0⟩
  else if o.dltIsNull then
    if !o.feedbackOk then ⟨true, false, false, 0⟩
    else if o.hasReadTimeout && !o.readTimeoutOk then ⟨true, false, false, 0⟩
    else ⟨false, true, true, read_buffer_size + ethernetHeaderSize⟩
  else if !o.hdrCompleteOk then ⟨true, false, false, 0⟩
  else if o.hasReadTimeout && !o.readTimeoutOk then ⟨true, false, false, 0⟩
  else ⟨false, true, false, read_buffer_size⟩

end bpf

namespace winpcap

/-- The sender's WinPcap write packet: its `Buffer` contents and its
`Length` field. -/
structure SendState where
  buffer : List Nat
  length : Nat
deriving DecidableEq

/-- Loop body of `DataLinkSenderImpl::build_and_send` in `winpcap.rs`: for
each chunk run the populate closure (through the panicking
`MutableEthernetPacket` view), save the packet's `Length` field, overwrite
it with the per-frame size, call `PacketSendPacket`, then restore the
saved `Length` before inspecting the send result.  Modelled from the spec:
the `PacketSendPacket` write primitive (vendor driver, not under `src/`)
transmits the first `Length` bytes of the packet's `Buffer`. -/
def buildGo (populate : Nat → List Nat → List Nat) (sendOk : Nat → Bool)
    (fs : Nat) : List (Nat × Nat) → Nat → SendState → SendTrace × SendState
  | [], _, st => (⟨.ok, [], 0⟩, st)
  | (start, size) :: rest, i, st =>
    let chunk := (st.buffer.drop start).take size
    if chunk.length < ethernetHeaderSize then (⟨.panicked, [], 0⟩, st)
    else
      let old_len := st.length
      let stSend : SendState := ⟨setSlice st.buffer start (populate i chunk), fs⟩
      let sent := stSend.buffer.take stSend.length
      let st2 : SendState := ⟨stSend.buffer, old_len⟩
      if sendOk i then
        let r := buildGo populate sendOk fs rest (i + 1) st2
        (⟨r.1.status, sent :: r.1.writes, r.1.populateCalls + 1⟩, r.2)
      else (⟨.osErr, [sent], 1⟩, st2)

/-- `DataLinkSenderImpl::build_and_send` in `winpcap.rs`:
`len = num_packets * packet_size` (wrapping); if `len >= Length` return
`None` (capacity), else iterate in `packet_size` chunks over the first
`min(Length, len)` bytes of the packet's `Buffer`. -/
def build_and_send (num_packets packet_size : Nat)
    (populate : Nat → List Nat → List Nat) (sendOk : Nat → Bool)
    (st : SendState) : SendTrace × SendState :=
  let len := wrapMul num_packets packet_size
  if st.length ≤ len then (⟨.capacity, [], 0⟩, st)
  else if packet_size = 0 then (⟨.panicked, [], 0⟩, st)
  else buildGo populate sendOk packet_size (chunkRanges (min st.length len) packet_size) 0 st

/-- `DataLinkSenderImpl::send_to` in `winpcap.rs`: literally
`build_and_send(1, packet.len(), copy-the-packet-into-the-slot)`. -/
def send_to (packet : List Nat) (sendOk : Nat → Bool) (st : SendState) :
    SendTrace × SendState :=
  build_and_send 1 packet.length (fun _ _ => packet) sendOk st

/-- Receiver state: the read packet's `Buffer` and the iterator's FIFO
queue of pending `(offset, length)` capture records. -/
structure RecvState where
  buffer : List Nat
  packets : List (Nat × Nat)
deriving DecidableEq

/-- Tail of `DataLinkChannelIteratorImpl::next` in `winpcap.rs`: pop the
front queue entry and return the view `Buffer[start .. start + len]`
through `EthernetPacket::new(slice).unwrap()`.  `none` models the panic on
an empty queue, the out-of-range raw-parts slice, and a delivered slice
shorter than the minimum Ethernet header (where `EthernetPacket::new`
yields `None` and the `unwrap` panics). -/
def pop (st : RecvState) (didRead : Bool) : Option (NextOutcome × RecvState) :=
  match st.packets with
  | [] => none
  | (start, len) :: rest =>
    if start + len ≤ st.buffer.length then
      if ethernetHeaderSize ≤ len then
        some (⟨(st.buffer.drop start).take len, (start, len), didRead⟩, ⟨st.buffer, rest⟩)
      else none
    else none

/-- `DataLinkChannelIteratorImpl::next` in `winpcap.rs`.  When the queue is
empty, one `PacketReceivePacket` call fills the read packet's `Buffer` —
`readData` is the oracle for the received bytes (`none` = failure,
surfaced as an OS error), with `ulBytesReceived = data.length` — and the
bytes are scanned into the queue; otherwise no read occurs. -/
def next (decode : List Nat → Nat × Nat) (align : Nat)
    (readData : Option (List Nat)) (st : RecvState) :
    Option (NextOutcome × RecvState) :=
  match st.packets with
  | [] =>
    match readData with
    | none => none
    | some data =>
      let buf1 := setSlice st.buffer 0 data
      let recs := scanRecords decode align 0 buf1 data.length
      pop ⟨buf1, recs⟩ true
  | _ :: _ => pop st false

/-- Success/failure oracle for the device-control steps of `channel` in
`winpcap.rs`, in program order. -/
structure ChannelOracle where
  openAdapterOk : Bool
  setHwFilterOk : Bool
  setBuffOk : Bool
  setReadTimeoutOk : Bool
  setMinToCopyOk : Bool
  allocReadPacketOk : Bool
  allocWritePacketOk : Bool
deriving DecidableEq

/-- Outcome of a `channel` call: whether it returned an error and whether a
successfully opened adapter is still open when the call returns. -/
structure ChannelResult where
  isError : Bool
  adapterOpen : Bool
deriving DecidableEq

/-- `channel` in `winpcap.rs`: open the adapter, set the hardware filter,
the kernel buffer size, the read timeout and min-to-copy, then allocate
the read and write packets.  Only the two packet-allocation failures close
the adapter; the four earlier configuration failures return the OS error
with the adapter still open. -/
def channel (o : ChannelOracle) : ChannelResult :=
  if !o.openAdapterOk then ⟨true, false⟩
  else if !o.setHwFilterOk then ⟨true, true⟩
  else if !o.setBuffOk then ⟨true, true⟩
  else if !o.setReadTimeoutOk then ⟨true, true⟩
  else if !o.setMinToCopyOk then ⟨true, true⟩
  else if !o.allocReadPacketOk then ⟨true, false⟩
  else if !o.allocWritePacketOk then ⟨true, false⟩
  else ⟨false, true⟩

end winpcap

/-! ## General lemmas about the embedded primitives -/

theorem wrapMul_eq_of_lt {a b : Nat} (h : a * b < W) : wrapMul a b = a * b :=
  Nat.mod_eq_of_lt h

theorem wrapSub_eq_sub {a b : Nat} (hba : b ≤ a) (ha : a < W) : wrapSub a b = a - b := by
  unfold wrapSub
  have h1 : a + W - b = a - b + W := by omega
  rw [h1, Nat.add_mod_right]
  exact Nat.mod_eq_of_lt (by omega)

theorem setSlice_length {buf : List Nat} {off : Nat} {data : List Nat}
    (h : off + data.length ≤ buf.length) : (setSlice buf off data).length = buf.length := by
  simp only [setSlice, List.length_append, List.length_take, List.length_drop]
  omega

theorem le_wordAlign {a : Nat} (ha : 0 < a) (x : Nat) : x ≤ wordAlign a x := by
  unfold wordAlign
  have h1 := Nat.div_add_mod (x + a - 1) a
  have h2 : (x + a - 1) % a < a := Nat.mod_lt _ ha
  have h3 : (x + a - 1) / a * a = a * ((x + a - 1) / a) := Nat.mul_comm _ _
  omega

theorem wordAlign_mono {a x y : Nat} (h : x ≤ y) : wordAlign a x ≤ wordAlign a y :=
  Nat.mul_le_mul_right a (Nat.div_le_div_right (by omega))

theorem dvd_wordAlign (a x : Nat) : a ∣ wordAlign a x :=
  Dvd.intro_left _ rfl

theorem add_wordAlign {a c : Nat} (ha : 0 < a) (hc : a ∣ c) (x : Nat) :
    c + wordAlign a x = wordAlign a (c + x) := by
  obtain ⟨m, rfl⟩ := hc
  unfold wordAlign
  have h1 : a * m + x + a - 1 = x + a - 1 + a * m := by omega
  rw [h1, Nat.add_mul_div_left _ _ ha, Nat.add_mul, Nat.mul_comm a m]
  omega

theorem chunkRanges_self {n : Nat} (h : 0 < n) : chunkRanges n n = [(0, n)] := by
  unfold chunkRanges
  have h1 : (n + n - 1) / n = 1 := by
    apply Nat.div_eq_of_lt_le <;> omega
  rw [h1]
  have h2 : List.range 1 = [0] := rfl
  rw [h2]
  simp

/-! ## The record scan: bounds of the queued records and of the cursor -/

theorem scanGo_records_bound (decode : List Nat → Nat × Nat) (align hs : Nat)
    (bytes : List Nat) (buflen : Nat) (hbl : buflen < W)
    (hwf : ∀ c, c < buflen → hs ≤ (decode (bytes.drop c)).2 ∧
      c + (decode (bytes.drop c)).1 + (decode (bytes.drop c)).2 ≤ buflen) :
    ∀ fuel cursor, ∀ p ∈ (scanGo decode align hs bytes buflen fuel cursor).1,
      p.1 + p.2 ≤ buflen := by
  intro fuel
  induction fuel with
  | zero => intro cursor p hp; simp [scanGo] at hp
  | succ n ih =>
    intro cursor p hp
    by_cases hc : cursor < buflen
    · simp only [scanGo, if_pos hc, List.mem_cons] at hp
      rcases hp with hp | hp
      · obtain ⟨hk, hsum⟩ := hwf cursor hc
        subst hp
        rw [wrapSub_eq_sub hk (by omega)]
        omega
      · exact ih _ p hp
    · simp [scanGo, if_neg hc] at hp

theorem scanGo_cursor_bound (decode : List Nat → Nat × Nat) (align hs : Nat)
    (bytes : List Nat) (buflen : Nat) (ha : 0 < align)
    (hwf : ∀ c, c < buflen →
      c + (decode (bytes.drop c)).1 + (decode (bytes.drop c)).2 ≤ buflen) :
    ∀ fuel cursor, align ∣ cursor → cursor ≤ wordAlign align buflen →
      (scanGo decode align hs bytes buflen fuel cursor).2 ≤ wordAlign align buflen := by
  intro fuel
  induction fuel with
  | zero => intro cursor _ hle; simpa [scanGo] using hle
  | succ n ih =>
    intro cursor hdvd hle
    by_cases hc : cursor < buflen
    · simp only [scanGo, if_pos hc]
      apply ih
      · exact Dvd.dvd.add hdvd (dvd_wordAlign _ _)
      · rw [add_wordAlign ha hdvd]
        apply wordAlign_mono
        have := hwf cursor hc
        omega
    · simpa [scanGo, if_neg hc] using hle

/-- C1 (amended): during one `next()` read, every `(offset, length)` pair
pushed onto the pending-record queue stays within the populated region of
the read — `offset + length ≤ buflen` — provided every record header the
scan decodes is well formed: its captured length is at least the loopback
header size being stripped, and the record (header plus captured bytes)
lies within the `buflen` bytes the read reported.  Without that proviso
the claim is false (`claim1_counterexample`): the scan performs no bounds
check of its own. -/
theorem claim1_scan_records_in_bounds (decode : List Nat → Nat × Nat) (align hs : Nat)
    (bytes : List Nat) (buflen : Nat) (hbl : buflen < W)
    (hwf : ∀ c, c < buflen → hs ≤ (decode (bytes.drop c)).2 ∧
      c + (decode (bytes.drop c)).1 + (decode (bytes.drop c)).2 ≤ buflen) :
    recordsWithin (scanRecords decode align hs bytes buflen) buflen :=
  fun p hp => scanGo_records_bound decode align hs bytes buflen hbl hwf _ 0 p hp

/-- C1 is false as stated: scanning 4 read bytes whose (malformed) record
header decodes to header length 2 and captured length 100 pushes the pair
`(2, 100)`, which lies far outside the populated region of the buffer. -/
theorem claim1_counterexample :
    ¬ recordsWithin (scanRecords (fun _ => (2, 100)) 4 0 (List.replicate 4 0) 4) 4 := by
  decide

/-- Witness for `claim1_scan_records_in_bounds` at a concrete scan. -/
theorem claim1_witness :
    recordsWithin (scanRecords (fun bs => if bs.length = 8 then (4, 4) else (0, 0)) 4 0
      (List.replicate 8 0) 8) 8 :=
  claim1_scan_records_in_bounds _ 4 0 (List.replicate 8 0) 8 (by decide) (by decide)

/-- C6 (amended): the scan cursor never moves past the word-aligned
round-up of the number of bytes the read reported, provided every decoded
record lies within the reported bytes.  The cursor can, however, strictly
pass the reported byte count itself by up to one alignment unit
(`claim6_counterexample`): the final aligned advance is not clamped to
`buflen`. -/
theorem claim6_scan_cursor_bound (decode : List Nat → Nat × Nat) (align hs : Nat)
    (bytes : List Nat) (buflen : Nat) (ha : 0 < align)
    (hwf : ∀ c, c < buflen →
      c + (decode (bytes.drop c)).1 + (decode (bytes.drop c)).2 ≤ buflen) :
    scanCursor decode align hs bytes buflen ≤ wordAlign align buflen :=
  scanGo_cursor_bound decode align hs bytes buflen ha hwf _ 0 (dvd_zero _) (Nat.zero_le _)

/-- C6 is false as stated: with word alignment 4, a single record of
header length 18 and captured length 1 lies exactly within the 19 bytes
the read reported, yet the aligned advance moves the cursor to 20,
strictly past the reported byte count. -/
theorem claim6_counterexample :
    scanCursor (fun _ => (18, 1)) 4 0 (List.replicate 19 0) 19 = 20 ∧
    (0 : Nat) + 18 + 1 ≤ 19 ∧ 19 < 20 := by
  decide

/-- Witness for `claim6_scan_cursor_bound` at a concrete scan. -/
theorem claim6_witness :
    scanCursor (fun bs => if bs.length = 8 then (4, 4) else (0, 0)) 4 0
      (List.replicate 8 0) 8 ≤ wordAlign 4 8 :=
  claim6_scan_cursor_bound _ 4 0 (List.replicate 8 0) 8 (by decide) (by decide)

/-! ## Channel setup error handling -/

/-- C2: on the WinPcap backend the claim fails in the code.  When
`PacketOpenAdapter` succeeds but the very next step (`PacketSetHwFilter`)
fails, `channel` returns the OS error with the adapter still open — no
`PacketCloseAdapter` runs on that path (nor on the `PacketSetBuff`,
`PacketSetReadTimeout` or `PacketSetMinToCopy` failure paths).  The BPF
backend, by contrast, closes its descriptor on every failing step, e.g.
on a `BIOCSETIF` failure, as the second conjunct shows. -/
theorem claim2_winpcap_leaks_adapter :
    winpcap.channel ⟨true, false, true, true, true, true, true⟩ = ⟨true, true⟩ ∧
    bpf.channel ⟨true, true, false, true, true, false, true, true, false, true⟩ 4096 =
      ⟨true, false, false, 0⟩ :=
  ⟨rfl, rfl⟩

/-! ## Capacity check of build_and_send -/

/-- C3 (amended): whenever `count * frame_size` is at least the write
buffer capacity and the product does not overflow the machine word
(`count * frame_size < 2 ^ 64`), `build_and_send` on either backend
returns the local capacity error (`None`), passes nothing to the device
write primitive, and never invokes the populate callback.  The
no-overflow proviso is forced by `claim3_counterexample`: the code
computes the product in wrapping machine arithmetic. -/
theorem claim3_capacity_error (count frameSize : Nat)
    (populate : Nat → List Nat → List Nat) (selectOk writeOk sendOk : Nat → Bool)
    (loopback : Bool) (write_buffer : List Nat) (st : winpcap.SendState)
    (hW : count * frameSize < W)
    (hbpf : write_buffer.length ≤ count * frameSize)
    (hwp : st.length ≤ count * frameSize) :
    bpf.build_and_send count frameSize populate selectOk writeOk loopback write_buffer =
      (⟨.capacity, [], 0⟩, write_buffer) ∧
    winpcap.build_and_send count frameSize populate sendOk st = (⟨.capacity, [], 0⟩, st) := by
  have hm : wrapMul count frameSize = count * frameSize := wrapMul_eq_of_lt hW
  constructor
  · simp [bpf.build_and_send, hm, hbpf]
  · simp [winpcap.build_and_send, hm, hwp]

/-- C3 is false as literally stated: with the write buffer holding 4
bytes, `count = 2 ^ 63` and `frame_size = 2` have a mathematical product
far above the capacity, yet the wrapped product is `0`, the capacity
check passes, and the call returns success (`Some(Ok(()))`) — while still
performing no device write and never invoking the populate callback. -/
theorem claim3_counterexample :
    (4 : Nat) ≤ 2 ^ 63 * 2 ∧
    (bpf.build_and_send (2 ^ 63) 2 (fun _ c => c) (fun _ => true) (fun _ => true) false
        (List.replicate 4 0)).1 = ⟨.ok, [], 0⟩ ∧
    (winpcap.build_and_send (2 ^ 63) 2 (fun _ c => c) (fun _ => true)
        ⟨List.replicate 4 0, 4⟩).1 = ⟨.ok, [], 0⟩ ∧
    SendStatus.ok ≠ SendStatus.capacity := by
  refine ⟨by norm_num, rfl, rfl, by decide⟩

/-- Witness for `claim3_capacity_error` at a concrete oversized batch. -/
theorem claim3_witness :
    bpf.build_and_send 2 4 (fun _ c => c) (fun _ => true) (fun _ => true) false
      (List.replicate 8 0) = (⟨.capacity, [], 0⟩, List.replicate 8 0) ∧
    winpcap.build_and_send 2 4 (fun _ c => c) (fun _ => true) ⟨List.replicate 8 0, 8⟩ =
      (⟨.capacity, [], 0⟩, ⟨List.replicate 8 0, 8⟩) :=
  claim3_capacity_error 2 4 _ _ _ _ false (List.replicate 8 0) ⟨List.replicate 8 0, 8⟩
    (by decide) (by decide) (by decide)

/-- C9: the capacity check multiplies in wrapping machine arithmetic, so
nonzero `count` and `frame_size` exist whose true product reaches `2 ^ 64`
while the wrapped product stays below the (default 4096-byte) write
buffer length, and the call is not rejected by the capacity check on
either backend. -/
theorem claim9_wrapping_capacity_check :
    ∃ count frameSize : Nat, 0 < count ∧ 0 < frameSize ∧ W ≤ count * frameSize ∧
      wrapMul count frameSize < 4096 ∧
      (bpf.build_and_send count frameSize (fun _ c => c) (fun _ => true) (fun _ => true) false
          (List.replicate 4096 0)).1.status ≠ SendStatus.capacity ∧
      (winpcap.build_and_send count frameSize (fun _ c => c) (fun _ => true)
          ⟨List.replicate 4096 0, 4096⟩).1.status ≠ SendStatus.capacity := by
  have h0 : wrapMul (2 ^ 63) 2 = 0 := by norm_num [wrapMul, W]
  have hlen : (List.replicate 4096 (0 : Nat)).length = 4096 := List.length_replicate _ _
  refine ⟨2 ^ 63, 2, by norm_num, by norm_num, by norm_num [W], by rw [h0]; omega, ?_, ?_⟩
  · simp only [bpf.build_and_send, h0, hlen]
    norm_num [chunkRanges, bpf.buildGo]
    decide
  · simp only [winpcap.build_and_send, h0]
    norm_num [chunkRanges, winpcap.buildGo]
    decide

/-! ## The WinPcap write packet Length field -/

theorem winpcap_buildGo_length (populate : Nat → List Nat → List Nat)
    (sendOk : Nat → Bool) (fs : Nat) :
    ∀ ranges i st, ((winpcap.buildGo populate sendOk fs ranges i st).2).length = st.length := by
  intro ranges
  induction ranges with
  | nil => intro i st; rfl
  | cons r rest ih =>
    intro i st
    obtain ⟨start, size⟩ := r
    simp only [winpcap.buildGo]
    split
    · rfl
    · split
      · exact ih (i + 1) _
      · rfl

/-- C10: every `build_and_send` call on the WinPcap backend leaves the
write packet's `Length` field with its pre-call value, on the capacity
path, on every send-error path and on the success path: the field is
saved before being overwritten by the per-frame size and restored after
each `PacketSendPacket`, before the send's result is inspected. -/
theorem claim10_write_packet_length_restored (num_packets packet_size : Nat)
    (populate : Nat → List Nat → List Nat) (sendOk : Nat → Bool) (st : winpcap.SendState) :
    ((winpcap.build_and_send num_packets packet_size populate sendOk st).2).length =
      st.length := by
  simp only [winpcap.build_and_send]
  split
  · rfl
  · split
    · rfl
    · exact winpcap_buildGo_length _ _ _ _ _ _

/-! ## Single-frame sends -/

theorem bpf_build_single (F : List Nat) (populate : Nat → List Nat → List Nat)
    (s w : Bool) (loopback : Bool) (write_buffer : List Nat)
    (h14 : ethernetHeaderSize ≤ F.length)
    (hlt : F.length < write_buffer.length) (hW : F.length < W)
    (hpop : populate 0 (write_buffer.take F.length) = F) :
    bpf.build_and_send 1 F.length populate (fun _ => s) (fun _ => w) loopback write_buffer =
      if s then
        if w then
          (⟨.ok, [F.drop (if loopback then ethernetHeaderSize else 0)], 1⟩,
            setSlice write_buffer 0 F)
        else
          (⟨.osErr, [F.drop (if loopback then ethernetHeaderSize else 0)], 1⟩,
            setSlice write_buffer 0 F)
      else (⟨.osErr, [], 1⟩, setSlice write_buffer 0 F) := by
  have h14' : (14 : Nat) ≤ F.length := by
    simpa [ethernetHeaderSize] using h14
  have hpos : 0 < F.length := by omega
  have hm : wrapMul 1 F.length = F.length := by
    unfold wrapMul
    rw [Nat.one_mul]
    exact Nat.mod_eq_of_lt hW
  have hcl : (write_buffer.take F.length).length = F.length := by
    rw [List.length_take]
    omega
  have hbuf1 : setSlice write_buffer 0 F = F ++ write_buffer.drop F.length := by
    simp [setSlice]
  have htake : (F ++ write_buffer.drop F.length).take F.length = F := List.take_left' rfl
  simp only [bpf.build_and_send, hm]
  rw [if_neg (by omega), if_neg (by omega), chunkRanges_self hpos]
  simp only [bpf.buildGo, List.drop_zero, hcl, hpop]
  rw [if_neg (by simp only [ethernetHeaderSize]; omega), hbuf1, htake]

theorem winpcap_build_single (F : List Nat) (populate : Nat → List Nat → List Nat)
    (sendOk : Nat → Bool) (st : winpcap.SendState)
    (h14 : ethernetHeaderSize ≤ F.length)
    (hlt : F.length < st.length) (hbuf : st.length ≤ st.buffer.length) (hW : F.length < W)
    (hpop : populate 0 (st.buffer.take F.length) = F) (hsend : sendOk 0 = true) :
    (winpcap.build_and_send 1 F.length populate sendOk st).1 = ⟨.ok, [F], 1⟩ := by
  have h14' : (14 : Nat) ≤ F.length := by
    simpa [ethernetHeaderSize] using h14
  have hpos : 0 < F.length := by omega
  have hm : wrapMul 1 F.length = F.length := by
    unfold wrapMul
    rw [Nat.one_mul]
    exact Nat.mod_eq_of_lt hW
  have hmin : min st.length F.length = F.length := Nat.min_eq_right (Nat.le_of_lt hlt)
  have hcl : (st.buffer.take F.length).length = F.length := by
    rw [List.length_take]
    omega
  have hbuf1 : setSlice st.buffer 0 F = F ++ st.buffer.drop F.length := by
    simp [setSlice]
  have htake : (F ++ st.buffer.drop F.length).take F.length = F := List.take_left' rfl
  simp only [winpcap.build_and_send, hm]
  rw [if_neg (by omega), if_neg (by omega), hmin, chunkRanges_self hpos]
  simp only [winpcap.buildGo, List.drop_zero, hcl, hpop]
  rw [if_neg (by simp [ethernetHeaderSize, hcl]; omega)]
  simp only [hbuf1, htake, hsend]
  simp [winpcap.buildGo]

/-- C4 (amended): on the WinPcap backend `send_to(F, hint)` is literally
`build_and_send(1, |F|, copy-F-into-slot)` and the behaviours agree
unconditionally.  On the BPF backend the two agree in result value and in
the bytes written to the device whenever `|F|` is below the write buffer
capacity — but `send_to` performs no capacity check at all, so the
"same capacity-error cases" part of the claim fails there
(`claim4_counterexample`). -/
theorem claim4_send_to_equivalence :
    (∀ (packet : List Nat) (sendOk : Nat → Bool) (st : winpcap.SendState),
        winpcap.send_to packet sendOk st =
          winpcap.build_and_send 1 packet.length (fun _ _ => packet) sendOk st) ∧
    (∀ (packet : List Nat) (loopback s w : Bool) (write_buffer : List Nat),
        ethernetHeaderSize ≤ packet.length → packet.length < write_buffer.length →
        packet.length < W →
        (bpf.send_to loopback s w packet).status =
          (bpf.build_and_send 1 packet.length (fun _ _ => packet) (fun _ => s) (fun _ => w)
              loopback write_buffer).1.status ∧
        (bpf.send_to loopback s w packet).writes =
          (bpf.build_and_send 1 packet.length (fun _ _ => packet) (fun _ => s) (fun _ => w)
              loopback write_buffer).1.writes) := by
  constructor
  · intro packet sendOk st
    rfl
  · intro packet loopback s w write_buffer h14 hlt hW
    rw [bpf_build_single packet (fun _ _ => packet) s w loopback write_buffer h14 hlt hW rfl]
    cases s <;> cases w <;> simp [bpf.send_to]

/-- C4 is false as stated on the BPF backend: for a 14-byte frame and a
14-byte write buffer, `send_to` succeeds and writes the frame, while
`build_and_send(1, |F|, copy)` reports the capacity error — the two have
different capacity-error cases. -/
theorem claim4_counterexample :
    (bpf.send_to false true true (List.replicate 14 3)).status = SendStatus.ok ∧
    (bpf.build_and_send 1 14 (fun _ _ => List.replicate 14 3) (fun _ => true) (fun _ => true)
        false (List.replicate 14 0)).1.status = SendStatus.capacity ∧
    SendStatus.ok ≠ SendStatus.capacity := by
  decide

/-- Witness for `claim4_send_to_equivalence` at a concrete frame. -/
theorem claim4_witness :
    (bpf.send_to false true true (List.replicate 14 2)).status =
      (bpf.build_and_send 1 (List.replicate 14 2).length (fun _ _ => List.replicate 14 2)
          (fun _ => true) (fun _ => true) false (List.replicate 16 0)).1.status ∧
    (bpf.send_to false true true (List.replicate 14 2)).writes =
      (bpf.build_and_send 1 (List.replicate 14 2).length (fun _ _ => List.replicate 14 2)
          (fun _ => true) (fun _ => true) false (List.replicate 16 0)).1.writes :=
  claim4_send_to_equivalence.2 (List.replicate 14 2) false true true (List.replicate 16 0)
    (by decide) (by decide) (by decide)

/-- C8: on a non-loopback channel, when the populate callback writes the
byte pattern `F` into its slot, a successful `build_and_send(1, |F|,
populate)` passes exactly `F`'s bytes to the device write primitive —
unmodified and with no leading bytes omitted — on both backends. -/
theorem claim8_exact_bytes_to_device (F : List Nat) (populate : Nat → List Nat → List Nat)
    (write_buffer : List Nat) (st : winpcap.SendState)
    (h14 : ethernetHeaderSize ≤ F.length) (hW : F.length < W)
    (hbpf : F.length < write_buffer.length)
    (hwp1 : F.length < st.length) (hwp2 : st.length ≤ st.buffer.length)
    (hpop : ∀ chunk, populate 0 chunk = F) :
    (bpf.build_and_send 1 F.length populate (fun _ => true) (fun _ => true) false
        write_buffer).1 = ⟨.ok, [F], 1⟩ ∧
    (winpcap.build_and_send 1 F.length populate (fun _ => true) st).1 = ⟨.ok, [F], 1⟩ := by
  constructor
  · rw [bpf_build_single F populate true true false write_buffer h14 hbpf hW (hpop _)]
    simp
  · exact winpcap_build_single F populate (fun _ => true) st h14 hwp1 hwp2 hW (hpop _) rfl

/-- Witness for `claim8_exact_bytes_to_device` at a concrete frame. -/
theorem claim8_witness :
    (bpf.build_and_send 1 (List.replicate 14 5).length (fun _ _ => List.replicate 14 5)
        (fun _ => true) (fun _ => true) false (List.replicate 16 0)).1 =
      ⟨.ok, [List.replicate 14 5], 1⟩ ∧
    (winpcap.build_and_send 1 (List.replicate 14 5).length (fun _ _ => List.replicate 14 5)
        (fun _ => true) ⟨List.replicate 16 0, 16⟩).1 = ⟨.ok, [List.replicate 14 5], 1⟩ :=
  claim8_exact_bytes_to_device (List.replicate 14 5) _ (List.replicate 16 0)
    ⟨List.replicate 16 0, 16⟩ (by decide) (by decide) (by decide) (by decide) (by decide)
    (fun _ => rfl)

/-! ## FIFO delivery of queued capture records -/

theorem stateOf_some {α : Type} (o : NextOutcome) (st : α) (d : α) :
    stateOf (some (o, st)) d = st :=
  rfl

theorem bpf_pop_cons (buf : List Nat) (lb : Bool) (s l : Nat) (rest : List (Nat × Nat))
    (didRead : Bool)
    (hb : s + (l + (if lb then ethernetHeaderSize else 0)) ≤ buf.length)
    (hmin : ethernetHeaderSize ≤ l + (if lb then ethernetHeaderSize else 0)) :
    bpf.pop ⟨buf, lb, (s, l) :: rest⟩ didRead =
      some (⟨((setSlice buf s (List.replicate (if lb then ethernetHeaderSize else 0) 0)).drop
                s).take (l + (if lb then ethernetHeaderSize else 0)),
             (s, l), didRead⟩,
            ⟨setSlice buf s (List.replicate (if lb then ethernetHeaderSize else 0) 0), lb,
             rest⟩) := by
  have hsl : (setSlice buf s
        (List.replicate (if lb then ethernetHeaderSize else 0) 0)).length = buf.length :=
    setSlice_length (by rw [List.length_replicate]; omega)
  simp only [bpf.pop]
  rw [if_pos (by rw [hsl]; omega), if_pos hmin]

theorem bpf_next_read (decode : List Nat → Nat × Nat) (align : Nat) (data buf : List Nat)
    (lb : Bool) (h : data.length ≠ 0) :
    bpf.next decode align (some data) ⟨buf, lb, []⟩ =
      bpf.pop ⟨setSlice buf (if lb then ethernetHeaderSize else 0) data, lb,
        scanRecords decode align (if lb then loopbackHeaderSize else 0)
          ((setSlice buf (if lb then ethernetHeaderSize else 0) data).drop
            (if lb then ethernetHeaderSize else 0)) data.length⟩ true := by
  simp only [bpf.next]
  rw [if_neg h]

theorem bpf_next_cons (decode : List Nat → Nat × Nat) (align : Nat)
    (rd : Option (List Nat)) (buf : List Nat) (lb : Bool) (p : Nat × Nat)
    (rest : List (Nat × Nat)) :
    bpf.next decode align rd ⟨buf, lb, p :: rest⟩ = bpf.pop ⟨buf, lb, p :: rest⟩ false :=
  rfl

theorem winpcap_pop_cons (buf : List Nat) (s l : Nat) (rest : List (Nat × Nat))
    (didRead : Bool) (hb : s + l ≤ buf.length) (hmin : ethernetHeaderSize ≤ l) :
    winpcap.pop ⟨buf, (s, l) :: rest⟩ didRead =
      some (⟨(buf.drop s).take l, (s, l), didRead⟩, ⟨buf, rest⟩) := by
  simp only [winpcap.pop]
  rw [if_pos hb, if_pos hmin]

theorem winpcap_next_read (decode : List Nat → Nat × Nat) (align : Nat)
    (data buf : List Nat) :
    winpcap.next decode align (some data) ⟨buf, []⟩ =
      winpcap.pop ⟨setSlice buf 0 data,
        scanRecords decode align 0 (setSlice buf 0 data) data.length⟩ true :=
  rfl

theorem winpcap_next_cons (decode : List Nat → Nat × Nat) (align : Nat)
    (rd : Option (List Nat)) (buf : List Nat) (p : Nat × Nat)
    (rest : List (Nat × Nat)) :
    winpcap.next decode align rd ⟨buf, p :: rest⟩ = winpcap.pop ⟨buf, p :: rest⟩ false :=
  rfl

theorem bpf_fifo (decode : List Nat → Nat × Nat) (align : Nat) (data buf : List Nat)
    (lb : Bool) (r1 r2 r3 : Nat × Nat)
    (hlen : data.length ≠ 0)
    (hfits : (if lb then ethernetHeaderSize else 0) + data.length ≤ buf.length)
    (hscan : scanRecords decode align (if lb then loopbackHeaderSize else 0)
      ((setSlice buf (if lb then ethernetHeaderSize else 0) data).drop
        (if lb then ethernetHeaderSize else 0)) data.length = [r1, r2, r3])
    (hb1 : r1.1 + (r1.2 + (if lb then ethernetHeaderSize else 0)) ≤ buf.length)
    (hb2 : r2.1 + (r2.2 + (if lb then ethernetHeaderSize else 0)) ≤ buf.length)
    (hb3 : r3.1 + (r3.2 + (if lb then ethernetHeaderSize else 0)) ≤ buf.length)
    (hm1 : ethernetHeaderSize ≤ r1.2 + (if lb then ethernetHeaderSize else 0))
    (hm2 : ethernetHeaderSize ≤ r2.2 + (if lb then ethernetHeaderSize else 0))
    (hm3 : ethernetHeaderSize ≤ r3.2 + (if lb then ethernetHeaderSize else 0)) :
    recOf (bpf.next decode align (some data) ⟨buf, lb, []⟩) = some (r1, true) ∧
    ∀ rd2 rd3 : Option (List Nat),
      recOf (bpf.next decode align rd2
        (stateOf (bpf.next decode align (some data) ⟨buf, lb, []⟩) ⟨buf, lb, []⟩)) =
        some (r2, false) ∧
      recOf (bpf.next decode align rd3
        (stateOf (bpf.next decode align rd2
          (stateOf (bpf.next decode align (some data) ⟨buf, lb, []⟩) ⟨buf, lb, []⟩))
          ⟨buf, lb, []⟩)) = some (r3, false) := by
  obtain ⟨s1, l1⟩ := r1
  obtain ⟨s2, l2⟩ := r2
  obtain ⟨s3, l3⟩ := r3
  have hlen1 : (setSlice buf (if lb then ethernetHeaderSize else 0) data).length =
      buf.length := setSlice_length hfits
  have hzl : ∀ s : Nat, s + (if lb then ethernetHeaderSize else 0) ≤ buf.length →
      ∀ b : List Nat, b.length = buf.length →
      (setSlice b s (List.replicate (if lb then ethernetHeaderSize else 0) 0)).length =
        buf.length := by
    intro s hs b hbl
    rw [setSlice_length]
    · exact hbl
    · rw [List.length_replicate, hbl]
      omega
  have h1 : bpf.next decode align (some data) ⟨buf, lb, []⟩ =
      some (⟨((setSlice (setSlice buf (if lb then ethernetHeaderSize else 0) data) s1
                  (List.replicate (if lb then ethernetHeaderSize else 0) 0)).drop s1).take
                (l1 + (if lb then ethernetHeaderSize else 0)),
             (s1, l1), true⟩,
            ⟨setSlice (setSlice buf (if lb then ethernetHeaderSize else 0) data) s1
                (List.replicate (if lb then ethernetHeaderSize else 0) 0), lb,
             [(s2, l2), (s3, l3)]⟩) := by
    rw [bpf_next_read decode align data buf lb hlen, hscan, bpf_pop_cons]
    · rw [hlen1]
      exact hb1
    · exact hm1
  have hlen2 : (setSlice (setSlice buf (if lb then ethernetHeaderSize else 0) data) s1
      (List.replicate (if lb then ethernetHeaderSize else 0) 0)).length = buf.length := by
    apply hzl s1 (by omega) _ hlen1
  have h2 : ∀ rd2, bpf.next decode align rd2
      (⟨setSlice (setSlice buf (if lb then ethernetHeaderSize else 0) data) s1
          (List.replicate (if lb then ethernetHeaderSize else 0) 0), lb,
        [(s2, l2), (s3, l3)]⟩ : bpf.RecvState) =
      some (⟨((setSlice (setSlice (setSlice buf (if lb then ethernetHeaderSize else 0) data) s1
                  (List.replicate (if lb then ethernetHeaderSize else 0) 0)) s2
                  (List.replicate (if lb then ethernetHeaderSize else 0) 0)).drop s2).take
                (l2 + (if lb then ethernetHeaderSize else 0)),
             (s2, l2), false⟩,
            ⟨setSlice (setSlice (setSlice buf (if lb then ethernetHeaderSize else 0) data) s1
                (List.replicate (if lb then ethernetHeaderSize else 0) 0)) s2
                (List.replicate (if lb then ethernetHeaderSize else 0) 0), lb,
             [(s3, l3)]⟩) := by
    intro rd2
    rw [bpf_next_cons, bpf_pop_cons]
    · rw [hlen2]
      exact hb2
    · exact hm2
  have hlen3 : (setSlice (setSlice (setSlice buf (if lb then ethernetHeaderSize else 0) data) s1
      (List.replicate (if lb then ethernetHeaderSize else 0) 0)) s2
      (List.replicate (if lb then ethernetHeaderSize else 0) 0)).length = buf.length := by
    apply hzl s2 (by omega) _ hlen2
  have h3 : ∀ rd3, bpf.next decode align rd3
      (⟨setSlice (setSlice (setSlice buf (if lb then ethernetHeaderSize else 0) data) s1
          (List.replicate (if lb then ethernetHeaderSize else 0) 0)) s2
          (List.replicate (if lb then ethernetHeaderSize else 0) 0), lb,
        [(s3, l3)]⟩ : bpf.RecvState) =
      some (⟨((setSlice (setSlice (setSlice (setSlice buf
                  (if lb then ethernetHeaderSize else 0) data) s1
                  (List.replicate (if lb then ethernetHeaderSize else 0) 0)) s2
                  (List.replicate (if lb then ethernetHeaderSize else 0) 0)) s3
                  (List.replicate (if lb then ethernetHeaderSize else 0) 0)).drop s3).take
                (l3 + (if lb then ethernetHeaderSize else 0)),
             (s3, l3), false⟩,
            ⟨setSlice (setSlice (setSlice (setSlice buf
                (if lb then ethernetHeaderSize else 0) data) s1
                (List.replicate (if lb then ethernetHeaderSize else 0) 0)) s2
                (List.replicate (if lb then ethernetHeaderSize else 0) 0)) s3
                (List.replicate (if lb then ethernetHeaderSize else 0) 0), lb, []⟩) := by
    intro rd3
    rw [bpf_next_cons, bpf_pop_cons]
    · rw [hlen3]
      exact hb3
    · exact hm3
  refine ⟨by rw [h1]; rfl, ?_⟩
  intro rd2 rd3
  constructor
  · rw [h1, stateOf_some, h2 rd2]
    rfl
  · rw [h1, stateOf_some, h2 rd2, stateOf_some, h3 rd3]
    rfl

theorem winpcap_fifo (decode : List Nat → Nat × Nat) (align : Nat) (data buf : List Nat)
    (r1 r2 r3 : Nat × Nat)
    (hfits : data.length ≤ buf.length)
    (hscan : scanRecords decode align 0 (setSlice buf 0 data) data.length = [r1, r2, r3])
    (hb1 : r1.1 + r1.2 ≤ buf.length)
    (hb2 : r2.1 + r2.2 ≤ buf.length)
    (hb3 : r3.1 + r3.2 ≤ buf.length)
    (hm1 : ethernetHeaderSize ≤ r1.2)
    (hm2 : ethernetHeaderSize ≤ r2.2)
    (hm3 : ethernetHeaderSize ≤ r3.2) :
    recOf (winpcap.next decode align (some data) ⟨buf, []⟩) = some (r1, true) ∧
    ∀ rd2 rd3 : Option (List Nat),
      recOf (winpcap.next decode align rd2
        (stateOf (winpcap.next decode align (some data) ⟨buf, []⟩) ⟨buf, []⟩)) =
        some (r2, false) ∧
      recOf (winpcap.next decode align rd3
        (stateOf (winpcap.next decode align rd2
          (stateOf (winpcap.next decode align (some data) ⟨buf, []⟩) ⟨buf, []⟩))
          ⟨buf, []⟩)) = some (r3, false) := by
  obtain ⟨s1, l1⟩ := r1
  obtain ⟨s2, l2⟩ := r2
  obtain ⟨s3, l3⟩ := r3
  have hlen1 : (setSlice buf 0 data).length = buf.length := setSlice_length (by omega)
  have h1 : winpcap.next decode align (some data) ⟨buf, []⟩ =
      some (⟨((setSlice buf 0 data).drop s1).take l1, (s1, l1), true⟩,
            ⟨setSlice buf 0 data, [(s2, l2), (s3, l3)]⟩) := by
    rw [winpcap_next_read, hscan, winpcap_pop_cons]
    · rw [hlen1]
      exact hb1
    · exact hm1
  have h2 : ∀ rd2, winpcap.next decode align rd2
      (⟨setSlice buf 0 data, [(s2, l2), (s3, l3)]⟩ : winpcap.RecvState) =
      some (⟨((setSlice buf 0 data).drop s2).take l2, (s2, l2), false⟩,
            ⟨setSlice buf 0 data, [(s3, l3)]⟩) := by
    intro rd2
    rw [winpcap_next_cons, winpcap_pop_cons]
    · rw [hlen1]
      exact hb2
    · exact hm2
  have h3 : ∀ rd3, winpcap.next decode align rd3
      (⟨setSlice buf 0 data, [(s3, l3)]⟩ : winpcap.RecvState) =
      some (⟨((setSlice buf 0 data).drop s3).take l3, (s3, l3), false⟩,
            ⟨setSlice buf 0 data, []⟩) := by
    intro rd3
    rw [winpcap_next_cons, winpcap_pop_cons]
    · rw [hlen1]
      exact hb3
    · exact hm3
  refine ⟨by rw [h1]; rfl, ?_⟩
  intro rd2 rd3
  constructor
  · rw [h1, stateOf_some, h2 rd2]
    rfl
  · rw [h1, stateOf_some, h2 rd2, stateOf_some, h3 rd3]
    rfl

/-- C7: if one device read decodes records `R1, R2, R3` in that physical
buffer order, the next three `next()` calls on the same iterator return
them in exactly that order — the pending-record queue is FIFO and, as the
universally quantified read oracles `rd2`, `rd3` and the `didRead = false`
flags show, no new device read occurs while the queue is non-empty.  This
holds on both backends for in-bounds records of at least the minimum
Ethernet frame size — the size every record a `next()` call can deliver
must have, since `EthernetPacket::new(..).unwrap()` panics on smaller
slices instead of returning. -/
theorem claim7_fifo_delivery :
    (∀ (decode : List Nat → Nat × Nat) (align : Nat) (data buf : List Nat) (lb : Bool)
        (r1 r2 r3 : Nat × Nat),
      data.length ≠ 0 →
      (if lb then ethernetHeaderSize else 0) + data.length ≤ buf.length →
      scanRecords decode align (if lb then loopbackHeaderSize else 0)
        ((setSlice buf (if lb then ethernetHeaderSize else 0) data).drop
          (if lb then ethernetHeaderSize else 0)) data.length = [r1, r2, r3] →
      r1.1 + (r1.2 + (if lb then ethernetHeaderSize else 0)) ≤ buf.length →
      r2.1 + (r2.2 + (if lb then ethernetHeaderSize else 0)) ≤ buf.length →
      r3.1 + (r3.2 + (if lb then ethernetHeaderSize else 0)) ≤ buf.length →
      ethernetHeaderSize ≤ r1.2 + (if lb then ethernetHeaderSize else 0) →
      ethernetHeaderSize ≤ r2.2 + (if lb then ethernetHeaderSize else 0) →
      ethernetHeaderSize ≤ r3.2 + (if lb then ethernetHeaderSize else 0) →
      recOf (bpf.next decode align (some data) ⟨buf, lb, []⟩) = some (r1, true) ∧
      ∀ rd2 rd3 : Option (List Nat),
        recOf (bpf.next decode align rd2
          (stateOf (bpf.next decode align (some data) ⟨buf, lb, []⟩) ⟨buf, lb, []⟩)) =
          some (r2, false) ∧
        recOf (bpf.next decode align rd3
          (stateOf (bpf.next decode align rd2
            (stateOf (bpf.next decode align (some data) ⟨buf, lb, []⟩) ⟨buf, lb, []⟩))
            ⟨buf, lb, []⟩)) = some (r3, false)) ∧
    (∀ (decode : List Nat → Nat × Nat) (align : Nat) (data buf : List Nat)
        (r1 r2 r3 : Nat × Nat),
      data.length ≤ buf.length →
      scanRecords decode align 0 (setSlice buf 0 data) data.length = [r1, r2, r3] →
      r1.1 + r1.2 ≤ buf.length →
      r2.1 + r2.2 ≤ buf.length →
      r3.1 + r3.2 ≤ buf.length →
      ethernetHeaderSize ≤ r1.2 →
      ethernetHeaderSize ≤ r2.2 →
      ethernetHeaderSize ≤ r3.2 →
      recOf (winpcap.next decode align (some data) ⟨buf, []⟩) = some (r1, true) ∧
      ∀ rd2 rd3 : Option (List Nat),
        recOf (winpcap.next decode align rd2
          (stateOf (winpcap.next decode align (some data) ⟨buf, []⟩) ⟨buf, []⟩)) =
          some (r2, false) ∧
        recOf (winpcap.next decode align rd3
          (stateOf (winpcap.next decode align rd2
            (stateOf (winpcap.next decode align (some data) ⟨buf, []⟩) ⟨buf, []⟩))
            ⟨buf, []⟩)) = some (r3, false)) :=
  ⟨fun decode align data buf lb r1 r2 r3 h1 h2 h3 h4 h5 h6 h7 h8 h9 =>
      bpf_fifo decode align data buf lb r1 r2 r3 h1 h2 h3 h4 h5 h6 h7 h8 h9,
   fun decode align data buf r1 r2 r3 h1 h2 h3 h4 h5 h6 h7 h8 =>
      winpcap_fifo decode align data buf r1 r2 r3 h1 h2 h3 h4 h5 h6 h7 h8⟩

/-- Witness for `claim7_fifo_delivery`: a 60-byte read decoding to the
three records `(4,16), (24,16), (44,16)`, delivered in that order by
three successive calls, the second and third of which perform no read. -/
theorem claim7_witness :
    (recOf (bpf.next fifoDecode 4 (some fifoData) ⟨fifoBuf, false, []⟩) =
        some ((4, 16), true) ∧
      recOf (bpf.next fifoDecode 4 none
        (stateOf (bpf.next fifoDecode 4 (some fifoData) ⟨fifoBuf, false, []⟩)
          ⟨fifoBuf, false, []⟩)) = some ((24, 16), false) ∧
      recOf (bpf.next fifoDecode 4 none
        (stateOf (bpf.next fifoDecode 4 none
          (stateOf (bpf.next fifoDecode 4 (some fifoData) ⟨fifoBuf, false, []⟩)
            ⟨fifoBuf, false, []⟩)) ⟨fifoBuf, false, []⟩)) = some ((44, 16), false)) ∧
    (recOf (winpcap.next fifoDecode 4 (some fifoData) ⟨fifoBuf, []⟩) =
        some ((4, 16), true) ∧
      recOf (winpcap.next fifoDecode 4 none
        (stateOf (winpcap.next fifoDecode 4 (some fifoData) ⟨fifoBuf, []⟩) ⟨fifoBuf, []⟩)) =
        some ((24, 16), false) ∧
      recOf (winpcap.next fifoDecode 4 none
        (stateOf (winpcap.next fifoDecode 4 none
          (stateOf (winpcap.next fifoDecode 4 (some fifoData) ⟨fifoBuf, []⟩) ⟨fifoBuf, []⟩))
          ⟨fifoBuf, []⟩)) = some ((44, 16), false)) := by
  have hb := claim7_fifo_delivery.1 fifoDecode 4 fifoData fifoBuf false
    (4, 16) (24, 16) (44, 16) (by decide) (by decide) (by decide) (by decide) (by decide)
    (by decide) (by decide) (by decide) (by decide)
  have hw := claim7_fifo_delivery.2 fifoDecode 4 fifoData fifoBuf
    (4, 16) (24, 16) (44, 16) (by decide) (by decide) (by decide) (by decide) (by decide)
    (by decide) (by decide) (by decide)
  exact ⟨⟨hb.1, (hb.2 none none).1, (hb.2 none none).2⟩,
         ⟨hw.1, (hw.2 none none).1, (hw.2 none none).2⟩⟩

/-! ## The loopback round trip -/

theorem scanGo_stop (decode : List Nat → Nat × Nat) (align hs : Nat) (bytes : List Nat)
    (buflen : Nat) : ∀ fuel cursor, ¬ cursor < buflen →
      scanGo decode align hs bytes buflen fuel cursor = ([], cursor)
  | 0, _, _ => rfl
  | _ + 1, _, h => by simp only [scanGo, if_neg h]

theorem scanRecords_single (decode : List Nat → Nat × Nat) (align hs : Nat)
    (bytes : List Nat) (buflen hd cap : Nat)
    (ha : 0 < align) (hbl : 0 < buflen)
    (hdec : decode bytes = (hd, cap)) (hsum : hd + cap = buflen) :
    scanRecords decode align hs bytes buflen = [(hd + hs, wrapSub cap hs)] := by
  have hstop : ¬ wordAlign align (hd + cap) < buflen := by
    rw [hsum]
    exact Nat.not_lt.mpr (le_wordAlign ha buflen)
  have hinner := scanGo_stop decode align hs bytes buflen buflen
    (wordAlign align (hd + cap)) hstop
  simp only [scanRecords, scanGo, if_pos hbl, List.drop_zero, hdec, Nat.zero_add, hinner]

theorem take_append_len {l₁ : List Nat} (l₂ : List Nat) {n : Nat} (i : Nat)
    (h : l₁.length = n) : (l₁ ++ l₂).take (n + i) = l₁ ++ l₂.take i := by
  subst h
  exact List.take_append i

theorem drop_append_len {l₁ : List Nat} (l₂ : List Nat) {n : Nat} (i : Nat)
    (h : l₁.length = n) : (l₁ ++ l₂).drop (n + i) = l₂.drop i := by
  subst h
  exact List.drop_append i

theorem loopback_frame_slice (buf hdr af w : List Nat) (haf : af.length = 4)
    (hfit : 14 + (hdr.length + (4 + w.length)) ≤ buf.length) :
    ((setSlice (setSlice buf 14 (hdr ++ (af ++ w))) (hdr.length + 4)
        (List.replicate 14 0)).drop (hdr.length + 4)).take (w.length + 14) =
      List.replicate 14 0 ++ w := by
  have hdata : (hdr ++ (af ++ w)).length = hdr.length + (4 + w.length) := by
    simp [haf]
  have hfit1 : 14 + (hdr ++ (af ++ w)).length ≤ buf.length := by omega
  have hlen1 : (setSlice buf 14 (hdr ++ (af ++ w))).length = buf.length :=
    setSlice_length hfit1
  have hs1 : hdr.length + 4 ≤ (setSlice buf 14 (hdr ++ (af ++ w))).length := by omega
  have htk : ((setSlice buf 14 (hdr ++ (af ++ w))).take (hdr.length + 4)).length =
      hdr.length + 4 := by
    rw [List.length_take]
    omega
  have hb2 : setSlice (setSlice buf 14 (hdr ++ (af ++ w))) (hdr.length + 4)
      (List.replicate 14 0) =
      (setSlice buf 14 (hdr ++ (af ++ w))).take (hdr.length + 4) ++
        (List.replicate 14 0 ++
          (setSlice buf 14 (hdr ++ (af ++ w))).drop (hdr.length + 4 + 14)) := by
    simp [setSlice, List.append_assoc]
  rw [hb2, List.drop_left' htk]
  have h14 : (List.replicate 14 (0 : Nat)).length = 14 := List.length_replicate _ _
  rw [Nat.add_comm w.length 14, take_append_len _ w.length h14]
  have hdrop : (setSlice buf 14 (hdr ++ (af ++ w))).drop (hdr.length + 4 + 14) =
      w ++ buf.drop (14 + (hdr ++ (af ++ w)).length) := by
    have hb1 : setSlice buf 14 (hdr ++ (af ++ w)) =
        buf.take 14 ++ ((hdr ++ (af ++ w)) ++ buf.drop (14 + (hdr ++ (af ++ w)).length)) := by
      simp [setSlice, List.append_assoc]
    have htk14 : (buf.take 14).length = 14 := by
      rw [List.length_take]
      omega
    have hcomm : hdr.length + 4 + 14 = 14 + (hdr.length + 4) := by omega
    rw [hb1, hcomm, drop_append_len _ (hdr.length + 4) htk14]
    have hassoc : (hdr ++ (af ++ w)) ++ buf.drop (14 + (hdr ++ (af ++ w)).length) =
        hdr ++ (af ++ (w ++ buf.drop (14 + (hdr ++ (af ++ w)).length))) := by
      simp [List.append_assoc]
    rw [hassoc, drop_append_len _ 4 rfl, List.drop_left' haf]
  rw [hdrop, List.take_left' rfl]

/-- C5 (amended): on a loopback channel, a successful `send_to(F)` writes
`F` minus its leading Ethernet header to the device; when the feedback
capture of those bytes (a record header, the OS's 4-byte address-family
tag, then the written bytes) is read back, `next()` delivers a frame
whose payload bytes equal `F`'s payload bytes, whose leading
header-sized region is entirely zero, and whose reported length equals
`F`'s length — not `F`'s length plus the header size, because the header
stripped on send is exactly compensated by the header synthesized on
receive (`claim5_counterexample`). -/
theorem claim5_loopback_round_trip (F hdr af buf : List Nat)
    (decode : List Nat → Nat × Nat) (align : Nat)
    (h14 : ethernetHeaderSize ≤ F.length) (hW : F.length < W) (halign : 0 < align)
    (haf : af.length = loopbackHeaderSize)
    (hfit : ethernetHeaderSize +
      (loopbackCapture hdr af (F.drop ethernetHeaderSize)).length ≤ buf.length)
    (hdec : decode ((setSlice buf ethernetHeaderSize
        (loopbackCapture hdr af (F.drop ethernetHeaderSize))).drop ethernetHeaderSize) =
      (hdr.length, loopbackHeaderSize + (F.length - ethernetHeaderSize))) :
    bpf.send_to true true true F = ⟨.ok, [F.drop ethernetHeaderSize], 0⟩ ∧
    (bpf.next decode align (some (loopbackCapture hdr af (F.drop ethernetHeaderSize)))
        ⟨buf, true, []⟩).map (fun x => x.1.frame) =
      some (List.replicate ethernetHeaderSize 0 ++ F.drop ethernetHeaderSize) ∧
    (bpf.next decode align (some (loopbackCapture hdr af (F.drop ethernetHeaderSize)))
        ⟨buf, true, []⟩).map (fun x => x.1.frame.length) = some F.length := by
  simp only [ethernetHeaderSize, loopbackHeaderSize] at *
  have hwlen : (F.drop 14).length = F.length - 14 := List.length_drop _ _
  have hdlen : (loopbackCapture hdr af (F.drop 14)).length =
      hdr.length + (4 + (F.drop 14).length) := by
    simp [loopbackCapture, haf]
  have hsub : wrapSub (4 + (F.length - 14)) 4 = (F.drop 14).length := by
    rw [wrapSub_eq_sub (by omega) (by unfold W at hW ⊢; omega), hwlen]
    omega
  have hscan : scanRecords decode align 4
      ((setSlice buf 14 (loopbackCapture hdr af (F.drop 14))).drop 14)
      (loopbackCapture hdr af (F.drop 14)).length =
      [(hdr.length + 4, (F.drop 14).length)] := by
    have h := scanRecords_single decode align 4
      ((setSlice buf 14 (loopbackCapture hdr af (F.drop 14))).drop 14)
      (loopbackCapture hdr af (F.drop 14)).length hdr.length (4 + (F.length - 14))
      halign (by omega) hdec (by omega)
    rw [h, hsub]
  have hlen0 : (loopbackCapture hdr af (F.drop 14)).length ≠ 0 := by omega
  have hread := bpf_next_read decode align (loopbackCapture hdr af (F.drop 14)) buf true hlen0
  simp only [ethernetHeaderSize, loopbackHeaderSize, reduceIte] at hread
  rw [hscan] at hread
  have hblen : (setSlice buf 14 (loopbackCapture hdr af (F.drop 14))).length = buf.length :=
    setSlice_length (by omega)
  have hpop := bpf_pop_cons (setSlice buf 14 (loopbackCapture hdr af (F.drop 14))) true
    (hdr.length + 4) (F.drop 14).length [] true
    (by simp only [ethernetHeaderSize, reduceIte, List.length_replicate, hblen]; omega)
    (by simp only [ethernetHeaderSize, reduceIte]; omega)
  simp only [ethernetHeaderSize, reduceIte] at hpop
  rw [hpop] at hread
  have hframe : ((setSlice (setSlice buf 14 (loopbackCapture hdr af (F.drop 14)))
      (hdr.length + 4) (List.replicate 14 0)).drop (hdr.length + 4)).take
      ((F.drop 14).length + 14) = List.replicate 14 0 ++ F.drop 14 := by
    have := loopback_frame_slice buf hdr af (F.drop 14) haf (by omega)
    simpa [loopbackCapture] using this
  refine ⟨rfl, ?_, ?_⟩
  · rw [hread]
    simp only [Option.map_some']
    rw [hframe]
  · rw [hread]
    simp only [Option.map_some']
    rw [hframe]
    simp only [Option.some.injEq, List.length_append, List.length_replicate, hwlen]
    omega

/-- C5 is false as stated: a 16-byte frame sent over the loopback channel
comes back from `next()` with reported length 16 — equal to the frame's
own length, not to the frame's length plus the 14-byte header size (30) —
because `send_to` strips the 14-byte Ethernet header before writing. -/
theorem claim5_counterexample :
    bpf.send_to true true true (List.replicate 16 5) =
      ⟨.ok, [(List.replicate 16 5).drop ethernetHeaderSize], 0⟩ ∧
    (bpf.next (fun _ => (18, 6)) 4
        (some (loopbackCapture (List.replicate 18 9) [2, 0, 0, 0]
          ((List.replicate 16 5).drop ethernetHeaderSize)))
        ⟨List.replicate 60 1, true, []⟩).map (fun x => x.1.frame.length) = some 16 ∧
    (List.replicate 16 5).length + ethernetHeaderSize = 30 ∧ (16 : Nat) ≠ 30 := by
  refine ⟨rfl, by decide, rfl, by decide⟩

/-- Witness for `claim5_loopback_round_trip` at a concrete 16-byte frame,
18-byte record header and 60-byte read buffer. -/
theorem claim5_witness :
    bpf.send_to true true true (List.replicate 16 5) =
      ⟨.ok, [(List.replicate 16 5).drop ethernetHeaderSize], 0⟩ ∧
    (bpf.next (fun _ => (18, 6)) 4
        (some (loopbackCapture (List.replicate 18 9) [2, 0, 0, 0]
          ((List.replicate 16 5).drop ethernetHeaderSize)))
        ⟨List.replicate 60 1, true, []⟩).map (fun x => x.1.frame) =
      some (List.replicate ethernetHeaderSize 0 ++
        (List.replicate 16 5).drop ethernetHeaderSize) ∧
    (bpf.next (fun _ => (18, 6)) 4
        (some (loopbackCapture (List.replicate 18 9) [2, 0, 0, 0]
          ((List.replicate 16 5).drop ethernetHeaderSize)))
        ⟨List.replicate 60 1, true, []⟩).map (fun x => x.1.frame.length) =
      some (List.replicate 16 5).length :=
  claim5_loopback_round_trip (List.replicate 16 5) (List.replicate 18 9) [2, 0, 0, 0]
    (List.replicate 60 1) (fun _ => (18, 6)) 4 (by decide) (by decide) (by decide)
    (by decide) (by decide) (by decide)

end Pnet
